import Mathlib

/-!
Verification of the orchestration core of `imagemin-cli` (`src/cli.js`).

The CLI is modelled as a deterministic state-passing program over an explicit
effect trace. Asynchronous promise chains in the source are cooperative
(single logical thread); the model executes them in program order, which is
one valid schedule, and every property proved below is insensitive to the
relative order of independently-settling promises.

Modelling conventions:
  - bytes are `List Nat`;
  - filesystem paths are lists of path segments (`"a/b.png"` is
    `["a", "b.png"]`); `dirname`, `basename` and `joinPath` model the
    corresponding functions of the node `path` module on forward-slash
    relative paths, including the normalization `join(".", f) = f`;
  - the external collaborators (the `imagemin` library, the `globby`
    expansion, the plugin packages loaded by `require`) are out of scope per
    the specification and enter the model through an `Env` record of
    functions plus a spec-modelled definition of the `imagemin` call;
  - the `ora` progress spinner is excluded (progress-indicator UI is
    explicitly out of scope for the specification and writes only to the
    terminal, never to the byte stream being verified);
  - `process.exit` is modelled by a flag on the process state; once it is
    set, no further effect is recorded (nothing runs after `process.exit`).
-/

/-- Raw bytes (a node `Buffer`). -/
abbrev Bytes := List Nat

/-- A filesystem path, as its list of `/`-separated segments. -/
abbrev Fpath := List String

/-- A loaded plugin handle: `transform(bytes) -> bytes`, fallible
(`require("imagemin-" + name)()` in the source). -/
abbrev PluginHandle := Bytes → Except String Bytes

/-- One observable effect of the process. -/
inductive Eff where
  /-- raw bytes written with `process.stdout.write` -/
  | outBytes (b : Bytes)
  /-- a text line written with `console.log` (standard output) -/
  | outLine (s : String)
  /-- a text line written with `console.error` (standard error) -/
  | errLine (s : String)
  /-- a file read from disk -/
  | fsRead (p : Fpath)
  /-- a file written to disk -/
  | fsWrite (p : Fpath) (b : Bytes)
  /-- a promise rejection that escaped every handler -/
  | unhandled (e : String)
  deriving Repr, DecidableEq

/-- The process state: the trace of effects so far, and the exit code once
`process.exit` has been called. -/
structure Proc where
  effs : List Eff := []
  exited : Option Nat := none
  deriving Repr, DecidableEq

/-- Record an effect; after `process.exit` nothing further happens. -/
def Proc.emit (p : Proc) (e : Eff) : Proc :=
  match p.exited with
  | some _ => p
  | none => { p with effs := p.effs ++ [e] }

/-- Model of `process.exit(c)`. -/
def Proc.doExit (p : Proc) (c : Nat) : Proc :=
  match p.exited with
  | some _ => p
  | none => { p with exited := some c }

/-- The final exit status of the process (0 when it ran to completion). -/
def exitCode (p : Proc) : Nat := p.exited.getD 0

/-- Model of node `path.dirname` on a segment path:
`dirname "a/b.png" = "a"`, `dirname "b.png" = "."`. -/
def dirname (p : Fpath) : Fpath :=
  if p.length ≤ 1 then ["."] else p.dropLast

/-- Model of node `path.basename` on a segment path. -/
def basename (p : Fpath) : String := p.getLastD ""

/-- Model of node `path.join` of a directory and a file name, with the
normalization `join(".", f) = f`. -/
def joinPath (d : Fpath) (f : String) : Fpath :=
  if d = ["."] then [f] else d ++ [f]

/-- The external world consumed by the CLI (all collaborators that the
specification declares out of scope). -/
structure Env where
  /-- plugin loading: `require("imagemin-" + name)()`; `none` models a
  `require` that throws -/
  registry : String → Option PluginHandle
  /-- glob expansion of a list of patterns into concrete file paths
  (`globby` with `nodir: true`; directories are excluded by the collaborator) -/
  glob : List Fpath → List Fpath
  /-- file contents on disk; `none` models a read error -/
  read : Fpath → Option Bytes

/-- Application of an ordered plugin chain to a byte buffer: each plugin's
output feeds the next plugin's input, and a failure aborts the chain. -/
def applyChain (use : List PluginHandle) (b : Bytes) : Except String Bytes :=
  match use with
  | [] => Except.ok b
  | pl :: rest =>
    match pl b with
    | Except.error e => Except.error e
    | Except.ok b2 => applyChain rest b2

/-- A file value resolved by the `imagemin` collaborator:
transformed bytes plus the path they were routed to. -/
structure OutFile where
  data : Bytes
  path : Fpath
  deriving Repr, DecidableEq

/-- Rejection message for an unreadable file. -/
def readErrMsg (x : Fpath) : String :=
  "ENOENT, no such file " ++ (String.intercalate ("/") x)

/-- Modelled from the spec: the per-file loop of the external `imagemin`
collaborator (spec section 1 declares it out of scope and section 4.3
describes its contract). Each matched file is read from disk, the plugin
chain is applied in order, and when an output directory is given the result
is written under it with the file's own basename; any per-file failure
rejects the whole call, and files already processed keep their writes. -/
def imageminGo (env : Env) (use : List PluginHandle) (outDir : Option Fpath) :
    List Fpath → Proc → Proc × Except String (List OutFile)
  | [], p => (p, Except.ok [])
  | x :: xs, p =>
    let p1 := p.emit (Eff.fsRead x)
    match env.read x with
    | none => (p1, Except.error (readErrMsg x))
    | some b =>
      match applyChain use b with
      | Except.error e => (p1, Except.error e)
      | Except.ok b2 =>
        match outDir with
        | none =>
          let rest := imageminGo env use outDir xs p1
          (rest.1, rest.2.map (fun fs => { data := b2, path := x } :: fs))
        | some d =>
          let dest := joinPath d (basename x)
          let p2 := p1.emit (Eff.fsWrite dest b2)
          let rest := imageminGo env use outDir xs p2
          (rest.1, rest.2.map (fun fs => { data := b2, path := dest } :: fs))

/-- Modelled from the spec: the external `imagemin(input, output, {use})`
call — glob-expand the input patterns, then process each matched file. -/
def imageminFiles (env : Env) (use : List PluginHandle) (input : List Fpath)
    (outDir : Option Fpath) (p : Proc) : Proc × Except String (List OutFile) :=
  imageminGo env use outDir (env.glob input) p

/-- The javascript value a promise in `run` can resolve to: `undefined`, or
an array of per-item results (only its length is ever consumed). -/
inductive JsVal where
  | undef
  | arr (n : Nat)
  deriving Repr, DecidableEq

/-- How a promise settles; `exited` marks a chain cut short by
`process.exit` (it never settles). -/
inductive Settle (α : Type) where
  | resolved (v : α)
  | rejected (e : String)
  | exited
  deriving Repr, DecidableEq

/-- Diagnostic printed by `runSingle` when several files would go to stdout
(src/cli.js line 113). -/
def msgMultiStdout : String := "Cannot write multiple files to stdout, specify a `--out-dir`"

/-- The `.then(files => ...)` continuation of `runSingle` (src/cli.js lines
107-121): a rejected `imagemin` promise passes through; otherwise, in stdout
mode, finish silently on zero files, print the diagnostic and abort the
process on more than one file, or write the single transformed buffer
(`files[0].data`) to standard output. Every resolving path returns
`undefined`. -/
def runSingleThen (outDir : Option Fpath) (p1 : Proc)
    (r : Except String (List OutFile)) : Proc × Settle JsVal :=
  match r with
  | Except.error e => (p1, Settle.rejected e)
  | Except.ok files =>
    if outDir = none ∧ files.length = 0 then
      (p1, Settle.resolved JsVal.undef)
    else if outDir = none ∧ 1 < files.length then
      ((p1.emit (Eff.errLine msgMultiStdout)).doExit 1, Settle.exited)
    else if outDir = none then
      (p1.emit (Eff.outBytes ((files.headD { data := [], path := [] }).data)),
        Settle.resolved JsVal.undef)
    else
      (p1, Settle.resolved JsVal.undef)

/-- Model of `runSingle(input, opts)` (src/cli.js lines 105-122): the
`imagemin(input, opts.outDir, {use})` call followed by its `.then`
continuation. -/
def runSingle (env : Env) (use : List PluginHandle) (input : List Fpath)
    (outDir : Option Fpath) (p : Proc) : Proc × Settle JsVal :=
  let pr := imageminFiles env use input outDir p
  runSingleThen outDir pr.1 pr.2

/-- The default plugin list (src/cli.js lines 45-50). -/
def DEFAULT_PLUGINS : List String := ["gifsicle", "jpegtran", "optipng", "svgo"]

/-- The diagnostic printed for an unresolvable plugin name
(src/cli.js lines 56-63, after `stripIndent` and `trim`). -/
def unknownPluginMsg (x : String) : String :=
  "Unknown plugin: " ++ (x ++
    ("\n\nDid you forget to install the plugin?\nYou can install it with:\n\n  $ npm install -g imagemin-" ++ x))

/-- Model of `requirePlugins` (src/cli.js lines 52-66): construct each
requested plugin in order; the first unresolvable name prints its
diagnostic to standard error and terminates the process with status 1
(`none` marks that nothing further runs). -/
def requirePlugins (env : Env) (names : List String) (p : Proc) :
    Proc × Option (List PluginHandle) :=
  match names with
  | [] => (p, some [])
  | x :: xs =>
    match env.registry x with
    | none => ((p.emit (Eff.errLine (unknownPluginMsg x))).doExit 1, none)
    | some h =>
      match requirePlugins env xs p with
      | (p1, none) => (p1, none)
      | (p1, some hs) => (p1, some (h :: hs))

/-- Straight-line description of plugin resolution: the handle list in
caller order, or `none` when some name does not resolve. -/
def resolveAll (env : Env) : List String → Option (List PluginHandle)
  | [] => some []
  | x :: xs =>
    match env.registry x, resolveAll env xs with
    | some h, some hs => some (h :: hs)
    | _, _ => none

/-- Model of the `plur` package as used here: naive pluralization. -/
def plur (word : String) (n : Nat) : String :=
  if n = 1 then word else word ++ "s"

/-- The summary line printed by the orchestrator (src/cli.js line 93). -/
def summaryMsg (n : Nat) : String :=
  toString n ++ (" " ++ (plur "image" n ++ " minified"))

/-- The TypeError raised when the summary continuation reads `.length` of
`undefined` (src/cli.js line 93, non-write mode). -/
def typeErrorMsg : String :=
  "TypeError: Cannot read property length of undefined"

/-- Model of the `runAll.then(...).catch(...)` continuation (src/cli.js
lines 90-98): on a resolved array print the summary line; on a resolved
`undefined` the read of `results.length` throws a TypeError which the
catch handler rethrows, surfacing an unhandled rejection; a rejected
`runAll` is likewise rethrown by the catch handler. -/
def aggregate (p : Proc) (r : Settle JsVal) : Proc :=
  match r with
  | Settle.exited => p
  | Settle.rejected e => p.emit (Eff.unhandled e)
  | Settle.resolved JsVal.undef => p.emit (Eff.unhandled typeErrorMsg)
  | Settle.resolved (JsVal.arr n) => p.emit (Eff.outLine (summaryMsg n))

/-- Model of `Promise.all` over already-run tasks: the first rejection in
settling order wins, and an all-resolved list yields the results array
(only its length is retained; in the source the following
`Array.isArray(results) ? results : [results]` step passes the array
through unchanged). -/
def settleAll : List (Settle JsVal) → Settle JsVal
  | [] => Settle.resolved (JsVal.arr 0)
  | Settle.resolved _ :: rs =>
    match settleAll rs with
    | Settle.resolved (JsVal.arr n) => Settle.resolved (JsVal.arr (n + 1))
    | other => other
  | Settle.rejected e :: _ => Settle.rejected e
  | Settle.exited :: _ => Settle.exited

/-- Model of the write-mode fan-out (src/cli.js lines 84-87): one
`runSingle([x], { outDir: path.dirname(x) })` per matched path. The model
runs the items in list order — one valid schedule of the concurrent
dispatch; `Promise.all` does not cancel siblings, so every item runs to
completion regardless of the others. -/
def runEach (env : Env) (use : List PluginHandle) :
    List Fpath → Proc → Proc × List (Settle JsVal)
  | [], p => (p, [])
  | x :: xs, p =>
    let r := runSingle env use [x] (some (dirname x)) p
    let rest := runEach env use xs r.1
    (rest.1, r.2 :: rest.2)

/-- The CLI-level input: a piped stdin buffer, or the positional
path/glob list. -/
inductive Input where
  | buffer (b : Bytes)
  | paths (ps : List Fpath)

/-- The parsed flags consumed by `run` (argument parsing is out of scope;
`arrify` of the repeatable `--plugin` flag is already applied). -/
structure Opts where
  plugin : Option (List String) := none
  outDir : Option Fpath := none
  write : Bool := false

/-- Model of `Object.assign({plugin: DEFAULT_PLUGINS}, opts)` followed by
`arrify(opts.plugin)` (src/cli.js lines 69-71). -/
def effectivePlugins (opts : Opts) : List String :=
  opts.plugin.getD DEFAULT_PLUGINS

/-- Model of `run(input, opts)` (src/cli.js lines 68-123).

Faithfulness notes, keyed to the source:
  - plugins are resolved first (line 71), before any file access;
  - a `Buffer` input is piped through `imagemin.buffer` and written to
    standard output; its promise chain has no rejection handler, so a chain
    failure surfaces as an unhandled rejection (lines 74-77);
  - by javascript operator precedence the `.then(results => ...)` on lines
    88 attaches only to the `globby` chain in the ternary's else-arm, so in
    non-write mode `runAll` is the bare `runSingle(input, opts)` promise,
    which resolves to `undefined`;
  - in non-write mode the trailing else-branch (line 102) invokes
    `runSingle(input, opts)` a second time with the same arguments;
  - the `ora` spinner (lines 72, 79-81, 92, 96) is terminal UI, excluded. -/
def run (env : Env) (input : Input) (opts : Opts) (p : Proc) : Proc :=
  match requirePlugins env (effectivePlugins opts) p with
  | (p1, none) => p1
  | (p1, some use) =>
    match input with
    | Input.buffer b =>
      match applyChain use b with
      | Except.ok buf => p1.emit (Eff.outBytes buf)
      | Except.error e => p1.emit (Eff.unhandled e)
    | Input.paths ps =>
      if opts.write then
        let r := runEach env use (env.glob ps) p1
        aggregate r.1 (settleAll r.2)
      else
        let r1 := runSingle env use ps opts.outDir p1
        let p2 := aggregate r1.1 r1.2
        (runSingle env use ps opts.outDir p2).1

/-- Model of the top level (src/cli.js lines 125-134): no positional input
on an interactive terminal is an error; positional input runs directly;
otherwise the piped stdin buffer is read and run. -/
def cliMain (env : Env) (argv : List Fpath) (flags : Opts)
    (stdin : Option Bytes) (tty : Bool) : Proc :=
  if argv.isEmpty ∧ tty then
    (Proc.emit {} (Eff.errLine "Specify at least one filename")).doExit 1
  else if argv.isEmpty then
    run env (Input.buffer (stdin.getD [])) flags {}
  else
    run env (Input.paths argv) flags {}

/-- The raw byte writes that reached standard output, in order. -/
def stdoutBytesOf (l : List Eff) : List Bytes :=
  l.filterMap fun e =>
    match e with
    | Eff.outBytes b => some b
    | _ => none

/-- All bytes that reached standard output, concatenated. -/
def stdoutData (l : List Eff) : Bytes := (stdoutBytesOf l).flatten

/-- The text lines that reached standard output, in order. -/
def stdoutLines (l : List Eff) : List String :=
  l.filterMap fun e =>
    match e with
    | Eff.outLine s => some s
    | _ => none

/-- The text lines that reached standard error, in order. -/
def stderrLines (l : List Eff) : List String :=
  l.filterMap fun e =>
    match e with
    | Eff.errLine s => some s
    | _ => none

/-- The file reads performed, in order. -/
def readsOf (l : List Eff) : List Fpath :=
  l.filterMap fun e =>
    match e with
    | Eff.fsRead q => some q
    | _ => none

/-- The file writes performed, in order. -/
def writesOf (l : List Eff) : List (Fpath × Bytes) :=
  l.filterMap fun e =>
    match e with
    | Eff.fsWrite q b => some (q, b)
    | _ => none

/-- The promise rejections that escaped every handler, in order. -/
def unhandledOf (l : List Eff) : List String :=
  l.filterMap fun e =>
    match e with
    | Eff.unhandled s => some s
    | _ => none

/-- Effects that touch neither the standard-output text channel nor the
unhandled-rejection channel. -/
def quietEff : Eff → Bool
  | Eff.outLine _ => false
  | Eff.unhandled _ => false
  | _ => true

/-- A trace fragment is quiet when every effect in it is quiet. -/
def Quiet (l : List Eff) : Prop := ∀ e ∈ l, quietEff e = true

/-- The effects one write-mode work item `x` contributes: its disk read,
plus — when the read and the whole plugin chain succeed — the write-back of
the transformed bytes to `path.join(path.dirname(x), path.basename(x))`. -/
def itemEffs (env : Env) (use : List PluginHandle) (x : Fpath) : List Eff :=
  match env.read x with
  | none => [Eff.fsRead x]
  | some b =>
    match applyChain use b with
    | Except.error _ => [Eff.fsRead x]
    | Except.ok b2 => [Eff.fsRead x, Eff.fsWrite (joinPath (dirname x) (basename x)) b2]

/-- How one write-mode work item `x` settles: rejected on a read error or a
plugin-chain failure, resolved to `undefined` otherwise. -/
def itemSettle (env : Env) (use : List PluginHandle) (x : Fpath) : Settle JsVal :=
  match env.read x with
  | none => Settle.rejected (readErrMsg x)
  | some b =>
    match applyChain use b with
    | Except.error e => Settle.rejected e
    | Except.ok _ => Settle.resolved JsVal.undef

/-- An identity plugin handle, used by the concrete environments below. -/
def idPlugin : PluginHandle := fun b => Except.ok b

/-- A plugin handle that fails exactly on the byte buffer `[9]`. -/
def failPlugin : PluginHandle :=
  fun b => if b = [9] then Except.error "boom" else Except.ok b

/-- Concrete world: one file `foo.png` containing `[1, 2, 3]`; every pattern
list expands to itself; `id` is the only installed plugin. -/
def envOneFile : Env :=
  { registry := fun n => if n = "id" then some idPlugin else none,
    glob := fun ps => ps,
    read := fun q => if q = [("foo.png")] then some [1, 2, 3] else none }

/-- Concrete world with two readable files `f1.png` and `f2.png`. -/
def envTwoFiles : Env :=
  { registry := fun n => if n = "id" then some idPlugin else none,
    glob := fun ps => ps,
    read := fun q =>
      if q = [("f1.png")] then some [1]
      else if q = [("f2.png")] then some [2] else none }

/-- Concrete world with a nested file `a/b.png` and a top-level `c.png`. -/
def envNested : Env :=
  { registry := fun n => if n = "id" then some idPlugin else none,
    glob := fun ps => ps,
    read := fun q =>
      if q = [("a"), ("b.png")] then some [7]
      else if q = [("c.png")] then some [8] else none }

/-- Concrete world where the installed plugin fails on `a.png` (bytes `[9]`)
and succeeds on `b.png` (bytes `[5]`). -/
def envMixed : Env :=
  { registry := fun n => if n = "p" then some failPlugin else none,
    glob := fun ps => ps,
    read := fun q =>
      if q = [("a.png")] then some [9]
      else if q = [("b.png")] then some [5] else none }

/-- Concrete world whose glob expansion matches nothing. -/
def envNoMatch : Env :=
  { registry := fun n => if n = "id" then some idPlugin else none,
    glob := fun _ => [],
    read := fun _ => none }

/-- A plugin handle that prepends a `0` byte (distinct from `plugB`). -/
def plugA : PluginHandle := fun b => Except.ok (0 :: b)

/-- A plugin handle that prepends a `1` byte (distinct from `plugA`). -/
def plugB : PluginHandle := fun b => Except.ok (1 :: b)

/-- Concrete world installing exactly the plugins `a` and `b`. -/
def envOrder : Env :=
  { registry := fun n =>
      if n = "a" then some plugA else if n = "b" then some plugB else none,
    glob := fun ps => ps,
    read := fun _ => none }

@[simp] theorem Proc.emit_none (l : List Eff) (e : Eff) :
    Proc.emit { effs := l, exited := none } e = { effs := l ++ [e], exited := none } := rfl

@[simp] theorem Proc.emit_some (l : List Eff) (c : Nat) (e : Eff) :
    Proc.emit { effs := l, exited := some c } e = { effs := l, exited := some c } := rfl

@[simp] theorem Proc.doExit_none (l : List Eff) (c : Nat) :
    Proc.doExit { effs := l, exited := none } c = { effs := l, exited := some c } := rfl

@[simp] theorem Proc.doExit_some (l : List Eff) (c c2 : Nat) :
    Proc.doExit { effs := l, exited := some c } c2 = { effs := l, exited := some c } := rfl

@[simp] theorem Proc.emit_exited (p : Proc) (e : Eff) : (p.emit e).exited = p.exited := by
  unfold Proc.emit; cases h : p.exited <;> simp [h]

/-- Last element with default agrees with `getLast` on a nonempty list. -/
theorem getLastD_eq_getLast {α : Type} (l : List α) (h : l ≠ []) (d : α) :
    l.getLastD d = l.getLast h := by
  induction l generalizing d with
  | nil => exact absurd rfl h
  | cons a t ih =>
    cases t with
    | nil => rfl
    | cons b t2 => simpa using ih (by simp) a

/-- For a nonempty path with no `"."` segment, rejoining `dirname` and
`basename` gives the path back (as node `path.join(path.dirname(x),
path.basename(x))` does for a normalized relative path). -/
theorem joinPath_dirname_basename (x : Fpath) (hne : x ≠ []) (hdot : (".") ∉ x) :
    joinPath (dirname x) (basename x) = x := by
  match x, hne with
  | [a], _ =>
    simp [joinPath, dirname, basename]
  | a :: b :: t, _ =>
    have hne2 : (a :: b :: t) ≠ [] := by simp
    have hlen : ¬ (a :: b :: t).length ≤ 1 := by simp
    have hdrop : (a :: b :: t).dropLast ≠ ["."] := by
      intro h
      have h2 : (".") ∈ (a :: b :: t).dropLast := by rw [h]; simp
      exact hdot (List.dropLast_subset _ h2)
    have hbase : basename (a :: b :: t) = (a :: b :: t).getLast hne2 :=
      getLastD_eq_getLast _ hne2 _
    rw [joinPath, dirname, if_neg hlen, if_neg hdrop, hbase,
      List.dropLast_append_getLast hne2]

theorem quiet_nil : Quiet [] := by intro e he; simp at he

theorem quiet_append {l1 l2 : List Eff} (h1 : Quiet l1) (h2 : Quiet l2) :
    Quiet (l1 ++ l2) := by
  intro e he
  rcases List.mem_append.mp he with h | h
  · exact h1 e h
  · exact h2 e h

theorem stdoutLines_of_quiet (l : List Eff) (h : Quiet l) : stdoutLines l = [] := by
  rw [stdoutLines, List.filterMap_eq_nil_iff]
  intro e he
  have hq := h e he
  cases e <;> simp_all [quietEff]

theorem unhandledOf_of_quiet (l : List Eff) (h : Quiet l) : unhandledOf l = [] := by
  rw [unhandledOf, List.filterMap_eq_nil_iff]
  intro e he
  have hq := h e he
  cases e <;> simp_all [quietEff]

theorem Proc.emit_quiet_extend (p : Proc) (e : Eff) (he : quietEff e = true) :
    ∃ ex, (p.emit e).effs = p.effs ++ ex ∧ Quiet ex := by
  unfold Proc.emit
  cases p.exited with
  | none =>
    refine ⟨[e], by simp, ?_⟩
    intro a ha
    rw [List.mem_singleton] at ha
    subst ha
    exact he
  | some c => exact ⟨[], by simp, quiet_nil⟩

theorem imageminGo_exited (env : Env) (use : List PluginHandle) (od : Option Fpath) :
    ∀ (xs : List Fpath) (p : Proc), (imageminGo env use od xs p).1.exited = p.exited
  | [], p => rfl
  | x :: xs, p => by
    simp only [imageminGo]
    cases hr : env.read x with
    | none => simp
    | some b =>
      cases hc : applyChain use b with
      | error e => simp [hc]
      | ok b2 =>
        cases od with
        | none => simp [hc, imageminGo_exited env use none xs]
        | some d => simp [hc, imageminGo_exited env use (some d) xs]

theorem imageminGo_quiet (env : Env) (use : List PluginHandle) (od : Option Fpath) :
    ∀ (xs : List Fpath) (p : Proc),
    ∃ ex, (imageminGo env use od xs p).1.effs = p.effs ++ ex ∧ Quiet ex
  | [], p => ⟨[], by simp [imageminGo], quiet_nil⟩
  | x :: xs, p => by
    simp only [imageminGo]
    obtain ⟨ex0, hex0, hq0⟩ := Proc.emit_quiet_extend p (Eff.fsRead x) (by rfl)
    cases hr : env.read x with
    | none => exact ⟨ex0, by simp [hex0], hq0⟩
    | some b =>
      cases hc : applyChain use b with
      | error e => exact ⟨ex0, by simp [hc, hex0], hq0⟩
      | ok b2 =>
        cases od with
        | none =>
          obtain ⟨ex1, hex1, hq1⟩ := imageminGo_quiet env use none xs (p.emit (Eff.fsRead x))
          exact ⟨ex0 ++ ex1, by simp [hc, hex1, hex0], quiet_append hq0 hq1⟩
        | some d =>
          obtain ⟨ex2, hex2, hq2⟩ :=
            Proc.emit_quiet_extend (p.emit (Eff.fsRead x))
              (Eff.fsWrite (joinPath d (basename x)) b2) (by rfl)
          obtain ⟨ex1, hex1, hq1⟩ :=
            imageminGo_quiet env use (some d) xs
              ((p.emit (Eff.fsRead x)).emit (Eff.fsWrite (joinPath d (basename x)) b2))
          refine ⟨(ex0 ++ ex2) ++ ex1, ?_, quiet_append (quiet_append hq0 hq2) hq1⟩
          simp [hc, hex1, hex2, hex0]

@[simp] theorem Proc.doExit_effs (p : Proc) (c : Nat) : (p.doExit c).effs = p.effs := by
  unfold Proc.doExit; cases h : p.exited <;> simp [h]

theorem Proc.emit_of_exited (p : Proc) (e : Eff) (c : Nat) (h : p.exited = some c) :
    p.emit e = p := by
  unfold Proc.emit; rw [h]

theorem Proc.doExit_of_exited (p : Proc) (c c2 : Nat) (h : p.exited = some c) :
    p.doExit c2 = p := by
  unfold Proc.doExit; rw [h]

theorem runSingleThen_resolved_undef (od : Option Fpath) (p1 q : Proc)
    (r : Except String (List OutFile)) (v : JsVal)
    (h : runSingleThen od p1 r = (q, Settle.resolved v)) : v = JsVal.undef := by
  cases r with
  | error e => simp [runSingleThen] at h
  | ok files =>
    simp only [runSingleThen] at h
    split at h
    · exact (Settle.resolved.inj (Prod.mk.inj h).2).symm
    · split at h
      · exact absurd (Prod.mk.inj h).2 (by simp)
      · split at h
        · exact (Settle.resolved.inj (Prod.mk.inj h).2).symm
        · exact (Settle.resolved.inj (Prod.mk.inj h).2).symm

theorem runSingleThen_exited_of_ne (od : Option Fpath) (p1 : Proc)
    (r : Except String (List OutFile))
    (h : (runSingleThen od p1 r).2 ≠ Settle.exited) :
    (runSingleThen od p1 r).1.exited = p1.exited := by
  cases r with
  | error e => rfl
  | ok files =>
    simp only [runSingleThen] at h ⊢
    by_cases h1 : od = none ∧ files.length = 0
    · simp [h1]
    · by_cases h2 : od = none ∧ 1 < files.length
      · rw [if_neg h1, if_pos h2] at h
        simp at h
      · by_cases h3 : od = none
        · have hne : files ≠ [] := by
            intro hh
            exact h1 ⟨h3, by simp [hh]⟩
          have hlt : ¬ 1 < files.length := fun hh => h2 ⟨h3, hh⟩
          simp [h3, hne, hlt]
        · simp [h1, h2, h3]

theorem runSingleThen_quiet (od : Option Fpath) (p1 : Proc)
    (r : Except String (List OutFile)) :
    ∃ ex, (runSingleThen od p1 r).1.effs = p1.effs ++ ex ∧ Quiet ex := by
  cases r with
  | error e => exact ⟨[], by simp [runSingleThen], quiet_nil⟩
  | ok files =>
    simp only [runSingleThen]
    by_cases h1 : od = none ∧ files.length = 0
    · exact ⟨[], by simp [h1], quiet_nil⟩
    · by_cases h2 : od = none ∧ 1 < files.length
      · obtain ⟨ex1, hex1, hq1⟩ :=
          Proc.emit_quiet_extend p1 (Eff.errLine msgMultiStdout) (by rfl)
        obtain ⟨h3, hlt⟩ := h2
        have hne : files ≠ [] := by
          intro hh
          rw [hh] at hlt
          simp at hlt
        exact ⟨ex1, by simp [h3, hne, hlt, hex1], hq1⟩
      · by_cases h3 : od = none
        · obtain ⟨ex1, hex1, hq1⟩ :=
            Proc.emit_quiet_extend p1
              (Eff.outBytes ((files.headD { data := [], path := [] }).data)) (by rfl)
          have hne : files ≠ [] := by
            intro hh
            exact h1 ⟨h3, by simp [hh]⟩
          have hlt : ¬ 1 < files.length := fun hh => h2 ⟨h3, hh⟩
          refine ⟨ex1, ?_, hq1⟩
          simp only [h3, hne, hlt, if_true, if_false, if_neg, ite_false]
          simp [hne, hlt]
          simpa using hex1
        · exact ⟨[], by simp [h1, h2, h3], quiet_nil⟩

theorem runSingleThen_noop (od : Option Fpath) (p1 : Proc)
    (r : Except String (List OutFile)) (c : Nat) (h : p1.exited = some c) :
    (runSingleThen od p1 r).1 = p1 := by
  cases r with
  | error e => rfl
  | ok files =>
    simp only [runSingleThen]
    by_cases h1 : od = none ∧ files.length = 0
    · simp [h1]
    · by_cases h2 : od = none ∧ 1 < files.length
      · rw [if_neg h1, if_pos h2]
        simp only []
        rw [Proc.emit_of_exited p1 _ c h, Proc.doExit_of_exited p1 c 1 h]
      · by_cases h3 : od = none
        · rw [if_neg h1, if_neg h2, if_pos h3]
          simp only []
          rw [Proc.emit_of_exited p1 _ c h]
        · simp [h1, h2, h3]

theorem imageminGo_noop (env : Env) (use : List PluginHandle) (od : Option Fpath) :
    ∀ (xs : List Fpath) (p : Proc) (c : Nat), p.exited = some c →
      (imageminGo env use od xs p).1 = p
  | [], p, c, _ => rfl
  | x :: xs, p, c, h => by
    have hem : p.emit (Eff.fsRead x) = p := Proc.emit_of_exited p _ c h
    simp only [imageminGo, hem]
    cases hr : env.read x with
    | none => rfl
    | some b =>
      cases hc : applyChain use b with
      | error e => simp [hc]
      | ok b2 =>
        cases od with
        | none => simp [hc, imageminGo_noop env use none xs p c h]
        | some d =>
          have hem2 : p.emit (Eff.fsWrite (joinPath d (basename x)) b2) = p :=
            Proc.emit_of_exited p _ c h
          simp [hc, hem2, imageminGo_noop env use (some d) xs p c h]

theorem runSingle_quiet (env : Env) (use : List PluginHandle) (input : List Fpath)
    (od : Option Fpath) (p : Proc) :
    ∃ ex, (runSingle env use input od p).1.effs = p.effs ++ ex ∧ Quiet ex := by
  unfold runSingle
  obtain ⟨ex0, hex0, hq0⟩ := imageminGo_quiet env use od (env.glob input) p
  obtain ⟨ex1, hex1, hq1⟩ :=
    runSingleThen_quiet od (imageminFiles env use input od p).1
      (imageminFiles env use input od p).2
  refine ⟨ex0 ++ ex1, ?_, quiet_append hq0 hq1⟩
  rw [hex1]
  rw [show (imageminFiles env use input od p).1.effs = p.effs ++ ex0 from hex0]
  rw [List.append_assoc]

theorem runSingle_resolved_undef (env : Env) (use : List PluginHandle)
    (input : List Fpath) (od : Option Fpath) (p q : Proc) (v : JsVal)
    (h : runSingle env use input od p = (q, Settle.resolved v)) : v = JsVal.undef := by
  unfold runSingle at h
  exact runSingleThen_resolved_undef od (imageminFiles env use input od p).1 q
    (imageminFiles env use input od p).2 v h

theorem runSingle_exited_of_ne (env : Env) (use : List PluginHandle)
    (input : List Fpath) (od : Option Fpath) (p : Proc)
    (h : (runSingle env use input od p).2 ≠ Settle.exited) :
    (runSingle env use input od p).1.exited = p.exited := by
  unfold runSingle at h ⊢
  rw [runSingleThen_exited_of_ne _ _ _ h]
  exact imageminGo_exited env use od (env.glob input) p

theorem runSingle_noop (env : Env) (use : List PluginHandle) (input : List Fpath)
    (od : Option Fpath) (p : Proc) (c : Nat) (h : p.exited = some c) :
    (runSingle env use input od p).1 = p := by
  unfold runSingle
  have hgo : (imageminFiles env use input od p).1 = p :=
    imageminGo_noop env use od (env.glob input) p c h
  rw [runSingleThen_noop od _ _ c (by rw [hgo]; exact h)]
  exact hgo

theorem runSingle_write_char (env : Env) (use : List PluginHandle) (x : Fpath)
    (l : List Eff) (hgx : env.glob [x] = [x]) :
    runSingle env use [x] (some (dirname x)) { effs := l, exited := none } =
      ({ effs := l ++ itemEffs env use x, exited := none }, itemSettle env use x) := by
  unfold runSingle imageminFiles
  rw [hgx]
  simp only [imageminGo, itemEffs, itemSettle]
  cases hr : env.read x with
  | none => simp [runSingleThen]
  | some b =>
    cases hc : applyChain use b with
    | error e => simp [hc, runSingleThen]
    | ok b2 =>
      simp only [hc]
      simp [imageminGo, runSingleThen, Except.map]

theorem runEach_char (env : Env) (use : List PluginHandle) :
    ∀ (paths : List Fpath) (l : List Eff),
    (∀ x ∈ paths, env.glob [x] = [x]) →
    runEach env use paths { effs := l, exited := none } =
      ({ effs := l ++ (paths.map (itemEffs env use)).flatten, exited := none },
        paths.map (itemSettle env use))
  | [], l, _ => by simp [runEach]
  | x :: xs, l, hgx => by
    have hx := hgx x (by simp)
    simp only [runEach, runSingle_write_char env use x l hx]
    rw [runEach_char env use xs (l ++ itemEffs env use x)
      (fun y hy => hgx y (by simp [hy]))]
    simp

theorem settleAll_all_resolved (rs : List (Settle JsVal))
    (h : ∀ r ∈ rs, r = Settle.resolved JsVal.undef) :
    settleAll rs = Settle.resolved (JsVal.arr rs.length) := by
  induction rs with
  | nil => rfl
  | cons r rs ih =>
    have hr := h r (by simp)
    subst hr
    have ih2 := ih (fun r2 h2 => h r2 (by simp [h2]))
    simp only [settleAll, ih2, List.length_cons]

theorem settleAll_has_rejected (rs : List (Settle JsVal))
    (hne : ∀ r ∈ rs, r ≠ Settle.exited)
    (hex : ∃ e, Settle.rejected e ∈ rs) :
    ∃ e2, settleAll rs = Settle.rejected e2 := by
  induction rs with
  | nil =>
    obtain ⟨e, he⟩ := hex
    simp at he
  | cons r rs ih =>
    cases r with
    | exited => exact absurd rfl (hne _ (by simp))
    | rejected e => exact ⟨e, rfl⟩
    | resolved v =>
      obtain ⟨e, he⟩ := hex
      have hin : Settle.rejected e ∈ rs := by
        rcases List.mem_cons.mp he with h1 | h1
        · exact absurd h1 (by simp)
        · exact h1
      obtain ⟨e2, h2⟩ := ih (fun r2 hr2 => hne r2 (by simp [hr2])) ⟨e, hin⟩
      exact ⟨e2, by simp only [settleAll, h2]⟩

theorem requirePlugins_snd (env : Env) :
    ∀ (names : List String) (p : Proc),
    (requirePlugins env names p).2 = resolveAll env names
  | [], p => rfl
  | x :: xs, p => by
    simp only [requirePlugins, resolveAll]
    cases hr : env.registry x with
    | none => simp
    | some h =>
      have ih := requirePlugins_snd env xs p
      rcases hq : requirePlugins env xs p with ⟨p1, o⟩
      rw [hq] at ih
      cases o with
      | none => simp [← ih]
      | some hs => simp [← ih]

theorem requirePlugins_of_resolveAll (env : Env) :
    ∀ (names : List String) (hs : List PluginHandle) (p : Proc),
    resolveAll env names = some hs →
    requirePlugins env names p = (p, some hs)
  | [], hs, p, h => by
    simp only [resolveAll] at h
    simp only [requirePlugins]
    rw [Option.some.inj h]
  | x :: xs, hs, p, h => by
    simp only [resolveAll] at h
    cases hr : env.registry x with
    | none => rw [hr] at h; simp at h
    | some h1 =>
      rw [hr] at h
      cases ht : resolveAll env xs with
      | none => rw [ht] at h; simp at h
      | some t =>
        rw [ht] at h
        simp only [] at h
        simp only [requirePlugins, hr,
          requirePlugins_of_resolveAll env xs t p ht]
        rw [← Option.some.inj h]

theorem requirePlugins_fail (env : Env) (x : String) (hx : env.registry x = none) :
    ∀ (good rest : List String) (p : Proc),
    (∀ y ∈ good, (env.registry y).isSome = true) →
    requirePlugins env (good ++ x :: rest) p =
      ((p.emit (Eff.errLine (unknownPluginMsg x))).doExit 1, none)
  | [], rest, p, _ => by
    simp only [List.nil_append, requirePlugins, hx]
  | y :: good, rest, p, hgood => by
    have hy := hgood y (by simp)
    obtain ⟨h1, hy1⟩ := Option.isSome_iff_exists.mp hy
    simp only [List.cons_append, requirePlugins, hy1, List.append_eq]
    rw [requirePlugins_fail env x hx good rest p (fun z hz => hgood z (by simp [hz]))]

theorem resolveAll_length (env : Env) :
    ∀ (names : List String) (hs : List PluginHandle),
    resolveAll env names = some hs → hs.length = names.length
  | [], hs, h => by
    simp only [resolveAll] at h
    rw [← Option.some.inj h]
    rfl
  | x :: xs, hs, h => by
    simp only [resolveAll] at h
    cases hr : env.registry x with
    | none => rw [hr] at h; simp at h
    | some h1 =>
      rw [hr] at h
      cases ht : resolveAll env xs with
      | none => rw [ht] at h; simp at h
      | some t =>
        rw [ht] at h
        simp only [] at h
        rw [← Option.some.inj h]
        simp [resolveAll_length env xs t ht]

theorem resolveAll_getD (env : Env) :
    ∀ (names : List String) (hs : List PluginHandle),
    resolveAll env names = some hs →
    ∀ i, i < names.length →
      env.registry (names.getD i "") = some (hs.getD i (fun b => Except.ok b))
  | [], hs, h, i, hi => by simp at hi
  | x :: xs, hs, h, i, hi => by
    simp only [resolveAll] at h
    cases hr : env.registry x with
    | none => rw [hr] at h; simp at h
    | some h1 =>
      rw [hr] at h
      cases ht : resolveAll env xs with
      | none => rw [ht] at h; simp at h
      | some t =>
        rw [ht] at h
        simp only [] at h
        rw [← Option.some.inj h]
        cases i with
        | zero => simpa using hr
        | succ j =>
          have hj : j < xs.length := by simpa using hi
          simpa using resolveAll_getD env xs t ht j hj

theorem applyChain_id (use : List PluginHandle)
    (hid : ∀ h ∈ use, ∀ bs, h bs = Except.ok bs) (b : Bytes) :
    applyChain use b = Except.ok b := by
  induction use with
  | nil => rfl
  | cons pl rest ih =>
    simp only [applyChain, hid pl (by simp) b]
    exact ih (fun h2 hh bs => hid h2 (by simp [hh]) bs)

theorem run_nowrite_eq (env : Env) (ps : List Fpath) (opts : Opts)
    (use : List PluginHandle) (hw : opts.write = false)
    (hre : resolveAll env (effectivePlugins opts) = some use) :
    run env (Input.paths ps) opts {} =
      (runSingle env use ps opts.outDir
        (aggregate (runSingle env use ps opts.outDir {}).1
          (runSingle env use ps opts.outDir {}).2)).1 := by
  unfold run
  rw [requirePlugins_of_resolveAll env (effectivePlugins opts) use {} hre]
  simp [hw]

theorem run_write_eq (env : Env) (ps : List Fpath) (opts : Opts)
    (use : List PluginHandle) (hw : opts.write = true)
    (hre : resolveAll env (effectivePlugins opts) = some use) :
    run env (Input.paths ps) opts {} =
      aggregate (runEach env use (env.glob ps) {}).1
        (settleAll (runEach env use (env.glob ps) {}).2) := by
  unfold run
  rw [requirePlugins_of_resolveAll env (effectivePlugins opts) use {} hre]
  simp [hw]

theorem run_buffer_eq (env : Env) (b : Bytes) (opts : Opts)
    (use : List PluginHandle)
    (hre : resolveAll env (effectivePlugins opts) = some use) :
    run env (Input.buffer b) opts {} =
      (match applyChain use b with
        | Except.ok buf => Proc.emit {} (Eff.outBytes buf)
        | Except.error e => Proc.emit {} (Eff.unhandled e)) := by
  unfold run
  rw [requirePlugins_of_resolveAll env (effectivePlugins opts) use {} hre]

theorem imageminGo_ok_none (env : Env) (use : List PluginHandle) (B C : Fpath → Bytes) :
    ∀ (paths : List Fpath) (l : List Eff),
    (∀ y ∈ paths, env.read y = some (B y)) →
    (∀ y ∈ paths, applyChain use (B y) = Except.ok (C y)) →
    imageminGo env use none paths { effs := l, exited := none } =
      ({ effs := l ++ paths.map Eff.fsRead, exited := none },
        Except.ok (paths.map fun y => { data := C y, path := y }))
  | [], l, _, _ => by simp [imageminGo]
  | x :: xs, l, hr, hc => by
    have hrx := hr x (by simp)
    have hcx := hc x (by simp)
    simp only [imageminGo, Proc.emit_none, hrx, hcx]
    rw [imageminGo_ok_none env use B C xs (l ++ [Eff.fsRead x])
      (fun y hy => hr y (by simp [hy])) (fun y hy => hc y (by simp [hy]))]
    simp [Except.map]

theorem runSingle_stdout_char (env : Env) (use : List PluginHandle) (ps : List Fpath)
    (x : Fpath) (b b2 : Bytes) (l : List Eff)
    (hg : env.glob ps = [x]) (hr : env.read x = some b)
    (hc : applyChain use b = Except.ok b2) :
    runSingle env use ps none { effs := l, exited := none } =
      ({ effs := l ++ [Eff.fsRead x, Eff.outBytes b2], exited := none },
        Settle.resolved JsVal.undef) := by
  unfold runSingle imageminFiles
  rw [hg]
  simp only [imageminGo, Proc.emit_none, hr, hc]
  simp [imageminGo, runSingleThen, Except.map]

theorem runSingle_multi_exit (env : Env) (use : List PluginHandle) (ps : List Fpath)
    (paths : List Fpath) (B C : Fpath → Bytes) (l : List Eff)
    (hg : env.glob ps = paths) (hlen : 1 < paths.length)
    (hr : ∀ y ∈ paths, env.read y = some (B y))
    (hc : ∀ y ∈ paths, applyChain use (B y) = Except.ok (C y)) :
    runSingle env use ps none { effs := l, exited := none } =
      ({ effs := (l ++ paths.map Eff.fsRead) ++ [Eff.errLine msgMultiStdout],
         exited := some 1 }, Settle.exited) := by
  unfold runSingle imageminFiles
  rw [hg, imageminGo_ok_none env use B C paths l hr hc]
  simp only [runSingleThen]
  have hlen2 : (paths.map fun y => ({ data := C y, path := y } : OutFile)).length
      = paths.length := by simp
  have h0 : ¬(paths.map fun y => ({ data := C y, path := y } : OutFile)).length = 0 := by
    rw [hlen2]
    omega
  have h2 : 1 < (paths.map fun y => ({ data := C y, path := y } : OutFile)).length := by
    rw [hlen2]
    exact hlen
  have hne3 : paths ≠ [] := by
    intro hh
    rw [hh] at hlen
    simp at hlen
  simp [h0, h2, hne3, hlen]

theorem stdoutBytesOf_append (a b : List Eff) :
    stdoutBytesOf (a ++ b) = stdoutBytesOf a ++ stdoutBytesOf b := by
  simp [stdoutBytesOf]

theorem stdoutLines_append (a b : List Eff) :
    stdoutLines (a ++ b) = stdoutLines a ++ stdoutLines b := by
  simp [stdoutLines]

theorem stderrLines_append (a b : List Eff) :
    stderrLines (a ++ b) = stderrLines a ++ stderrLines b := by
  simp [stderrLines]

theorem unhandledOf_append (a b : List Eff) :
    unhandledOf (a ++ b) = unhandledOf a ++ unhandledOf b := by
  simp [unhandledOf]

theorem writesOf_append (a b : List Eff) :
    writesOf (a ++ b) = writesOf a ++ writesOf b := by
  simp [writesOf]

theorem readsOf_append (a b : List Eff) :
    readsOf (a ++ b) = readsOf a ++ readsOf b := by
  simp [readsOf]

theorem writesOf_mem (l : List Eff) (a : Fpath) (b : Bytes)
    (h : Eff.fsWrite a b ∈ l) : (a, b) ∈ writesOf l := by
  rw [writesOf, List.mem_filterMap]
  exact ⟨Eff.fsWrite a b, h, rfl⟩

/-- Claim C1 (code bug): for a single valid input file and no output
directory, the claim says the final standard-output bytes equal the plugin
chain applied once to the file's bytes with no extra bytes appended. The
code violates this: because `run` invokes `runSingle(input, opts)` twice
(src/cli.js lines 83 and 102), the transformed buffer is written to
standard output twice — here chain output `[1, 2, 3]` but stdout
`[1, 2, 3] ++ [1, 2, 3]`. No diagnostic text reaches standard output. -/
theorem C1_single_file_stdout_doubled :
    applyChain [idPlugin] [1, 2, 3] = Except.ok [1, 2, 3] ∧
    stdoutData (run envOneFile (Input.paths [[("foo.png")]])
        { plugin := some [("id")], outDir := none, write := false } {}).effs
      = [1, 2, 3] ++ [1, 2, 3] ∧
    [1, 2, 3] ++ [1, 2, 3] ≠ ([1, 2, 3] : Bytes) ∧
    stdoutLines (run envOneFile (Input.paths [[("foo.png")]])
        { plugin := some [("id")], outDir := none, write := false } {}).effs = [] := by
  refine ⟨rfl, by decide, by decide, by decide⟩

/-- Claim C2: in every non-write path-list invocation, `run` invokes
`runSingle` twice with identical arguments — once as `runAll` (line 83) and
once in the trailing else-branch (line 102) — so with a single valid file
and no output directory the file is read twice, the chain is applied twice,
and the transformed bytes reach standard output twice. -/
theorem C2_run_invokes_runSingle_twice (env : Env) (ps : List Fpath) (opts : Opts)
    (use : List PluginHandle) (hw : opts.write = false)
    (hre : resolveAll env (effectivePlugins opts) = some use) :
    (run env (Input.paths ps) opts {} =
      (runSingle env use ps opts.outDir
        (aggregate (runSingle env use ps opts.outDir {}).1
          (runSingle env use ps opts.outDir {}).2)).1) ∧
    (∀ x b b2, opts.outDir = none → env.glob ps = [x] →
      env.read x = some b → applyChain use b = Except.ok b2 →
      stdoutBytesOf (run env (Input.paths ps) opts {}).effs = [b2, b2] ∧
      readsOf (run env (Input.paths ps) opts {}).effs = [x, x]) := by
  refine ⟨run_nowrite_eq env ps opts use hw hre, ?_⟩
  intro x b b2 ho hg hr hc
  rw [run_nowrite_eq env ps opts use hw hre, ho]
  rw [show ({} : Proc) = { effs := [], exited := none } from rfl]
  rw [runSingle_stdout_char env use ps x b b2 [] hg hr hc]
  simp only [aggregate, Proc.emit_none, List.nil_append]
  rw [runSingle_stdout_char env use ps x b b2
    ([Eff.fsRead x, Eff.outBytes b2] ++ [Eff.unhandled typeErrorMsg]) hg hr hc]
  constructor
  · simp [stdoutBytesOf]
  · simp [readsOf]

/-- Claim C2 witness at a concrete input. -/
theorem C2_witness :
    (run envOneFile (Input.paths [[("foo.png")]])
        { plugin := some [("id")], outDir := none, write := false } {} =
      (runSingle envOneFile [idPlugin] [[("foo.png")]] none
        (aggregate (runSingle envOneFile [idPlugin] [[("foo.png")]] none {}).1
          (runSingle envOneFile [idPlugin] [[("foo.png")]] none {}).2)).1) ∧
    stdoutBytesOf (run envOneFile (Input.paths [[("foo.png")]])
        { plugin := some [("id")], outDir := none, write := false } {}).effs
      = [[1, 2, 3], [1, 2, 3]] ∧
    readsOf (run envOneFile (Input.paths [[("foo.png")]])
        { plugin := some [("id")], outDir := none, write := false } {}).effs
      = [[("foo.png")], [("foo.png")]] := by
  have h := C2_run_invokes_runSingle_twice envOneFile [[("foo.png")]]
    { plugin := some [("id")], outDir := none, write := false } [idPlugin] rfl rfl
  have h2 := h.2 [("foo.png")] [1, 2, 3] [1, 2, 3] rfl rfl rfl rfl
  exact ⟨h.1, h2.1, h2.2⟩

/-- Claim C5: in non-write path-list mode the promise returned by
`runSingle` can only resolve to `undefined`; consequently the aggregation
continuation reads `.length` of `undefined`, raises a TypeError instead of
printing the summary (no text line ever reaches standard output), and the
catch handler rethrows it as the sole unhandled rejection of the run. -/
theorem C5_runSingle_undefined_typeerror (env : Env) (ps : List Fpath) (opts : Opts)
    (use : List PluginHandle) (q : Proc) (v : JsVal)
    (hw : opts.write = false)
    (hre : resolveAll env (effectivePlugins opts) = some use)
    (hres : runSingle env use ps opts.outDir {} = (q, Settle.resolved v)) :
    v = JsVal.undef ∧
    stdoutLines (run env (Input.paths ps) opts {}).effs = [] ∧
    unhandledOf (run env (Input.paths ps) opts {}).effs = [typeErrorMsg] := by
  have hv : v = JsVal.undef :=
    runSingle_resolved_undef env use ps opts.outDir {} q v hres
  subst hv
  have hqex : q.exited = none := by
    have h2 : (runSingle env use ps opts.outDir {}).2 ≠ Settle.exited := by
      rw [hres]
      simp
    have h3 := runSingle_exited_of_ne env use ps opts.outDir {} h2
    rw [hres] at h3
    exact h3
  obtain ⟨ex, hex, hqx⟩ := runSingle_quiet env use ps opts.outDir {}
  rw [hres] at hex
  have hqeffs : q.effs = ex := by simpa using hex
  have hagg : aggregate q (Settle.resolved JsVal.undef)
      = q.emit (Eff.unhandled typeErrorMsg) := rfl
  have hemit : (q.emit (Eff.unhandled typeErrorMsg)).effs
      = q.effs ++ [Eff.unhandled typeErrorMsg] := by
    unfold Proc.emit
    rw [hqex]
  obtain ⟨ex2, hex2, hqx2⟩ :=
    runSingle_quiet env use ps opts.outDir (aggregate q (Settle.resolved JsVal.undef))
  have hrun := run_nowrite_eq env ps opts use hw hre
  rw [hres] at hrun
  have heffs : (run env (Input.paths ps) opts {}).effs
      = ex ++ ([Eff.unhandled typeErrorMsg] ++ ex2) := by
    rw [hrun]
    simp only []
    rw [hex2, hagg, hemit, hqeffs]
    rw [List.append_assoc]
  refine ⟨rfl, ?_, ?_⟩
  · rw [heffs, stdoutLines_append, stdoutLines_append,
      stdoutLines_of_quiet ex hqx, stdoutLines_of_quiet ex2 hqx2]
    rfl
  · rw [heffs, unhandledOf_append, unhandledOf_append,
      unhandledOf_of_quiet ex hqx, unhandledOf_of_quiet ex2 hqx2]
    rfl

/-- Claim C5 witness at a concrete input. -/
theorem C5_witness :
    stdoutLines (run envOneFile (Input.paths [[("foo.png")]])
        { plugin := some [("id")], outDir := none, write := false } {}).effs = [] ∧
    unhandledOf (run envOneFile (Input.paths [[("foo.png")]])
        { plugin := some [("id")], outDir := none, write := false } {}).effs
      = [typeErrorMsg] := by
  have h := C5_runSingle_undefined_typeerror envOneFile [[("foo.png")]]
    { plugin := some [("id")], outDir := none, write := false } [idPlugin]
    { effs := [Eff.fsRead [("foo.png")], Eff.outBytes [1, 2, 3]], exited := none }
    JsVal.undef rfl rfl (by decide)
  exact ⟨h.2.1, h.2.2⟩

theorem extractors_map_fsRead (paths : List Fpath) :
    stderrLines (paths.map Eff.fsRead) = [] ∧
    stdoutBytesOf (paths.map Eff.fsRead) = [] ∧
    stdoutLines (paths.map Eff.fsRead) = [] ∧
    writesOf (paths.map Eff.fsRead) = [] ∧
    unhandledOf (paths.map Eff.fsRead) = [] := by
  induction paths with
  | nil => exact ⟨rfl, rfl, rfl, rfl, rfl⟩
  | cons x xs ih =>
    simp only [List.map_cons]
    simp only [stderrLines, stdoutBytesOf, stdoutLines, writesOf, unhandledOf,
      List.filterMap_cons] at ih ⊢
    exact ih

/-- Claim C4: with two or more valid input files and no output directory
(non-write mode), the process prints the multiple-files diagnostic to
standard error, exits with status 1, and writes no transformed bytes and no
text to standard output. -/
theorem C4_multi_to_stdout_exits (env : Env) (ps : List Fpath) (opts : Opts)
    (use : List PluginHandle) (paths : List Fpath) (B C : Fpath → Bytes)
    (hw : opts.write = false) (ho : opts.outDir = none)
    (hre : resolveAll env (effectivePlugins opts) = some use)
    (hg : env.glob ps = paths) (hlen : 1 < paths.length)
    (hr : ∀ y ∈ paths, env.read y = some (B y))
    (hc : ∀ y ∈ paths, applyChain use (B y) = Except.ok (C y)) :
    exitCode (run env (Input.paths ps) opts {}) = 1 ∧
    stderrLines (run env (Input.paths ps) opts {}).effs = [msgMultiStdout] ∧
    stdoutBytesOf (run env (Input.paths ps) opts {}).effs = [] ∧
    stdoutLines (run env (Input.paths ps) opts {}).effs = [] := by
  have hrun := run_nowrite_eq env ps opts use hw hre
  rw [ho] at hrun
  rw [show ({} : Proc) = { effs := [], exited := none } from rfl] at hrun
  rw [runSingle_multi_exit env use ps paths B C [] hg hlen hr hc] at hrun
  rw [show aggregate
      { effs := ([] ++ paths.map Eff.fsRead) ++ [Eff.errLine msgMultiStdout],
        exited := some 1 } Settle.exited =
      { effs := ([] ++ paths.map Eff.fsRead) ++ [Eff.errLine msgMultiStdout],
        exited := some 1 } from rfl] at hrun
  rw [runSingle_noop env use ps none
    { effs := ([] ++ paths.map Eff.fsRead) ++ [Eff.errLine msgMultiStdout],
      exited := some 1 } 1 rfl] at hrun
  rw [hrun]
  obtain ⟨he1, he2, he3, _, _⟩ := extractors_map_fsRead paths
  refine ⟨rfl, ?_, ?_, ?_⟩
  · simp only [List.nil_append, stderrLines_append, he1]
    rfl
  · simp only [List.nil_append, stdoutBytesOf_append, he2]
    rfl
  · simp only [List.nil_append, stdoutLines_append, he3]
    rfl

/-- Claim C4 witness at a concrete input with two files. -/
theorem C4_witness :
    exitCode (run envTwoFiles (Input.paths [[("f1.png")], [("f2.png")]])
      { plugin := some [("id")], outDir := none, write := false } {}) = 1 ∧
    stderrLines (run envTwoFiles (Input.paths [[("f1.png")], [("f2.png")]])
      { plugin := some [("id")], outDir := none, write := false } {}).effs
      = [msgMultiStdout] ∧
    stdoutBytesOf (run envTwoFiles (Input.paths [[("f1.png")], [("f2.png")]])
      { plugin := some [("id")], outDir := none, write := false } {}).effs = [] ∧
    stdoutLines (run envTwoFiles (Input.paths [[("f1.png")], [("f2.png")]])
      { plugin := some [("id")], outDir := none, write := false } {}).effs = [] := by
  exact C4_multi_to_stdout_exits envTwoFiles [[("f1.png")], [("f2.png")]]
    { plugin := some [("id")], outDir := none, write := false } [idPlugin]
    [[("f1.png")], [("f2.png")]]
    (fun y => if y = [("f1.png")] then [1] else [2])
    (fun y => if y = [("f1.png")] then [1] else [2])
    rfl rfl rfl rfl (by decide) (by decide)
    (by intro y hy; fin_cases hy <;> rfl)

theorem map_congr_mem {α β : Type} (l : List α) (f g : α → β)
    (h : ∀ a ∈ l, f a = g a) : l.map f = l.map g := by
  induction l with
  | nil => rfl
  | cons a t ih =>
    simp only [List.map_cons, h a (by simp)]
    rw [ih (fun a2 h2 => h a2 (by simp [h2]))]

theorem itemEffs_quiet (env : Env) (use : List PluginHandle) (x : Fpath) :
    Quiet (itemEffs env use x) := by
  unfold itemEffs
  cases hrd : env.read x with
  | none => intro e he; simp at he; subst he; rfl
  | some b =>
    cases hc : applyChain use b with
    | error e2 =>
      simp only [hc]
      intro e he; simp at he; subst he; rfl
    | ok b2 =>
      simp only [hc]
      intro e he
      simp at he
      rcases he with h | h <;> subst h <;> rfl

theorem itemSettle_ne_exited (env : Env) (use : List PluginHandle) (x : Fpath) :
    itemSettle env use x ≠ Settle.exited := by
  unfold itemSettle
  cases hrd : env.read x with
  | none => simp
  | some b =>
    cases hc : applyChain use b with
    | error e2 => simp [hc]
    | ok b2 => simp [hc]

theorem quiet_flatten (ls : List (List Eff)) (h : ∀ l ∈ ls, Quiet l) :
    Quiet ls.flatten := by
  intro e he
  rw [List.mem_flatten] at he
  obtain ⟨l, hl, hel⟩ := he
  exact h l hl e hel

theorem writesOf_flatten_items (paths : List Fpath) (C : Fpath → Bytes) :
    writesOf ((paths.map fun x => [Eff.fsRead x, Eff.fsWrite x (C x)]).flatten)
      = paths.map fun x => (x, C x) := by
  induction paths with
  | nil => rfl
  | cons x xs ih =>
    simp only [List.map_cons, List.flatten_cons]
    rw [writesOf_append, ih]
    rfl

/-- Claim C3 counterexample: a write-mode batch of two items where the
plugin fails on the first item's bytes. The failure is NOT recovered at
that item: the `Promise.all` aggregation rejects, no summary line is ever
printed (the batch is halted), and the error escapes as an unhandled
rejection — contradicting "the batch is not halted". The sibling item does
still complete (its write occurs), and no `process.exit` is triggered. -/
theorem C3_counterexample :
    stdoutLines (run envMixed (Input.paths [[("a.png")], [("b.png")]])
        { plugin := some [("p")], outDir := none, write := true } {}).effs = [] ∧
    unhandledOf (run envMixed (Input.paths [[("a.png")], [("b.png")]])
        { plugin := some [("p")], outDir := none, write := true } {}).effs
      = [("boom")] ∧
    writesOf (run envMixed (Input.paths [[("a.png")], [("b.png")]])
        { plugin := some [("p")], outDir := none, write := true } {}).effs
      = [([("b.png")], [5])] := by
  refine ⟨by decide, by decide, by decide⟩

/-- Claim C3 (amended): in a write-mode batch, a plugin failure on one
item's bytes does not cancel sibling items — every sibling whose chain
succeeds still gets its write — and triggers no `process.exit` (the
program itself sets no non-zero status); but the batch aggregation is
halted by the rejection: the summary is never printed and the catch
handler rethrows the error as an unhandled rejection. -/
theorem C3_item_failure_halts_summary (env : Env) (ps : List Fpath) (opts : Opts)
    (use : List PluginHandle) (paths : List Fpath) (B : Fpath → Bytes)
    (xf : Fpath) (e0 : String)
    (hw : opts.write = true)
    (hre : resolveAll env (effectivePlugins opts) = some use)
    (hg : env.glob ps = paths)
    (hgx : ∀ x ∈ paths, env.glob [x] = [x])
    (hr : ∀ x ∈ paths, env.read x = some (B x))
    (hxf : xf ∈ paths) (hfail : applyChain use (B xf) = Except.error e0) :
    stdoutLines (run env (Input.paths ps) opts {}).effs = [] ∧
    (∃ e2, unhandledOf (run env (Input.paths ps) opts {}).effs = [e2]) ∧
    exitCode (run env (Input.paths ps) opts {}) = 0 ∧
    (∀ y ∈ paths, y ≠ [] → (".") ∉ y →
      ∀ c2, applyChain use (B y) = Except.ok c2 →
        (y, c2) ∈ writesOf (run env (Input.paths ps) opts {}).effs) := by
  have hrun := run_write_eq env ps opts use hw hre
  rw [hg] at hrun
  rw [show ({} : Proc) = { effs := [], exited := none } from rfl] at hrun
  rw [runEach_char env use paths [] hgx] at hrun
  have hrej : ∃ e2, settleAll (paths.map (itemSettle env use))
      = Settle.rejected e2 := by
    apply settleAll_has_rejected
    · intro r hrm
      rw [List.mem_map] at hrm
      obtain ⟨y, _, hy2⟩ := hrm
      rw [← hy2]
      exact itemSettle_ne_exited env use y
    · refine ⟨e0, ?_⟩
      rw [List.mem_map]
      refine ⟨xf, hxf, ?_⟩
      unfold itemSettle
      simp only [hr xf hxf, hfail]
  obtain ⟨e2, he2⟩ := hrej
  rw [he2] at hrun
  have hagg : aggregate
      { effs := [] ++ (paths.map (itemEffs env use)).flatten, exited := none }
      (Settle.rejected e2) =
      { effs := ([] ++ (paths.map (itemEffs env use)).flatten) ++ [Eff.unhandled e2],
        exited := none } := by
    unfold aggregate
    rfl
  rw [hagg] at hrun
  rw [hrun]
  have hqf : Quiet (paths.map (itemEffs env use)).flatten := by
    apply quiet_flatten
    intro l hl
    rw [List.mem_map] at hl
    obtain ⟨y, _, hy2⟩ := hl
    rw [← hy2]
    exact itemEffs_quiet env use y
  refine ⟨?_, ⟨e2, ?_⟩, rfl, ?_⟩
  · simp only [List.nil_append, stdoutLines_append, stdoutLines_of_quiet _ hqf]
    rfl
  · simp only [List.nil_append, unhandledOf_append, unhandledOf_of_quiet _ hqf]
    rfl
  · intro y hy hyne hydot c2 hok
    apply writesOf_mem
    simp only [List.nil_append, List.mem_append]
    left
    rw [List.mem_flatten]
    refine ⟨itemEffs env use y, List.mem_map_of_mem _ hy, ?_⟩
    unfold itemEffs
    simp only [hr y hy, hok, joinPath_dirname_basename y hyne hydot]
    simp

/-- Claim C3 amended-claim witness at a concrete input. -/
theorem C3_witness :
    stdoutLines (run envMixed (Input.paths [[("a.png")], [("b.png")]])
        { plugin := some [("p")], outDir := none, write := true } {}).effs = [] ∧
    (∃ e2, unhandledOf (run envMixed (Input.paths [[("a.png")], [("b.png")]])
        { plugin := some [("p")], outDir := none, write := true } {}).effs = [e2]) ∧
    exitCode (run envMixed (Input.paths [[("a.png")], [("b.png")]])
        { plugin := some [("p")], outDir := none, write := true } {}) = 0 := by
  have h := C3_item_failure_halts_summary envMixed
    [[("a.png")], [("b.png")]]
    { plugin := some [("p")], outDir := none, write := true } [failPlugin]
    [[("a.png")], [("b.png")]]
    (fun y => if y = [("a.png")] then [9] else [5])
    [("a.png")] "boom"
    rfl rfl rfl (by decide) (by decide) (by decide) rfl
  exact ⟨h.1, h.2.1, h.2.2.1⟩

/-- Claim C6 counterexample: in non-write mode (the claim fixes no mode), a
glob matching zero files does NOT print "0 images minified": `runSingle`
resolves `undefined`, the summary continuation raises a TypeError before
`console.log`, and the error surfaces as an unhandled rejection. The exit
status is 0, but no summary line ever reaches standard output. -/
theorem C6_counterexample :
    stdoutLines (run envNoMatch (Input.paths [[("missing.png")]])
        { plugin := some [("id")], outDir := none, write := false } {}).effs = [] ∧
    unhandledOf (run envNoMatch (Input.paths [[("missing.png")]])
        { plugin := some [("id")], outDir := none, write := false } {}).effs
      = [typeErrorMsg] ∧
    exitCode (run envNoMatch (Input.paths [[("missing.png")]])
        { plugin := some [("id")], outDir := none, write := false } {}) = 0 := by
  refine ⟨by decide, by decide, by decide⟩

/-- Claim C6 (amended): in write-in-place mode, a glob matching zero files
completes the batch normally: "0 images minified" is printed to standard
output and the process exit status is 0. In non-write mode the same input
instead hits the undefined-results TypeError of C5 and prints no summary. -/
theorem C6_zero_matches_write_mode (env : Env) (ps : List Fpath) (opts : Opts)
    (use : List PluginHandle)
    (hw : opts.write = true)
    (hre : resolveAll env (effectivePlugins opts) = some use)
    (hg : env.glob ps = []) :
    stdoutLines (run env (Input.paths ps) opts {}).effs = [summaryMsg 0] ∧
    summaryMsg 0 = "0 images minified" ∧
    exitCode (run env (Input.paths ps) opts {}) = 0 := by
  have hrun : run env (Input.paths ps) opts {} =
      { effs := [Eff.outLine (summaryMsg 0)], exited := none } := by
    rw [run_write_eq env ps opts use hw hre, hg]
    rfl
  rw [hrun]
  refine ⟨rfl, by decide, rfl⟩

/-- Claim C6 amended-claim witness at a concrete input. -/
theorem C6_witness :
    stdoutLines (run envNoMatch (Input.paths [[("missing.png")]])
        { plugin := some [("id")], outDir := none, write := true } {}).effs
      = [summaryMsg 0] ∧
    summaryMsg 0 = "0 images minified" ∧
    exitCode (run envNoMatch (Input.paths [[("missing.png")]])
        { plugin := some [("id")], outDir := none, write := true } {}) = 0 :=
  C6_zero_matches_write_mode envNoMatch [[("missing.png")]]
    { plugin := some [("id")], outDir := none, write := true } [idPlugin]
    rfl rfl rfl

/-- Claim C7: in write-in-place mode, every matched file (a nonempty
normalized path) is read, transformed by the chain, and written back to its
own path (its destination directory is its containing directory); the trace
is exactly one read and one write per matched file followed by the summary,
the write set is one transformed result per matched file in order, the
reported count equals the number of matched files, and the exit status
is 0. -/
theorem C7_write_in_place (env : Env) (ps : List Fpath) (opts : Opts)
    (use : List PluginHandle) (paths : List Fpath) (B C : Fpath → Bytes)
    (hw : opts.write = true)
    (hre : resolveAll env (effectivePlugins opts) = some use)
    (hg : env.glob ps = paths)
    (hne : ∀ x ∈ paths, x ≠ []) (hdot : ∀ x ∈ paths, (".") ∉ x)
    (hgx : ∀ x ∈ paths, env.glob [x] = [x])
    (hr : ∀ x ∈ paths, env.read x = some (B x))
    (hc : ∀ x ∈ paths, applyChain use (B x) = Except.ok (C x)) :
    (run env (Input.paths ps) opts {}).effs =
      (paths.map fun x => [Eff.fsRead x, Eff.fsWrite x (C x)]).flatten
        ++ [Eff.outLine (summaryMsg paths.length)] ∧
    writesOf (run env (Input.paths ps) opts {}).effs
      = paths.map (fun x => (x, C x)) ∧
    stdoutLines (run env (Input.paths ps) opts {}).effs
      = [summaryMsg paths.length] ∧
    exitCode (run env (Input.paths ps) opts {}) = 0 := by
  have hrun := run_write_eq env ps opts use hw hre
  rw [hg] at hrun
  rw [show ({} : Proc) = { effs := [], exited := none } from rfl] at hrun
  rw [runEach_char env use paths [] hgx] at hrun
  have hie : paths.map (itemEffs env use)
      = paths.map fun x => [Eff.fsRead x, Eff.fsWrite x (C x)] := by
    apply map_congr_mem
    intro x hx
    unfold itemEffs
    simp only [hr x hx, hc x hx, joinPath_dirname_basename x (hne x hx) (hdot x hx)]
  have his : paths.map (itemSettle env use)
      = paths.map fun _ => Settle.resolved JsVal.undef := by
    apply map_congr_mem
    intro x hx
    unfold itemSettle
    simp only [hr x hx, hc x hx]
  rw [hie, his] at hrun
  have hsa : settleAll (paths.map fun _ => Settle.resolved JsVal.undef)
      = Settle.resolved (JsVal.arr paths.length) := by
    rw [settleAll_all_resolved]
    · simp
    · intro r hrm
      rw [List.mem_map] at hrm
      obtain ⟨y, _, hy⟩ := hrm
      exact hy.symm
  rw [hsa] at hrun
  have hagg : aggregate
      { effs := [] ++ (paths.map fun x =>
          [Eff.fsRead x, Eff.fsWrite x (C x)]).flatten, exited := none }
      (Settle.resolved (JsVal.arr paths.length)) =
      { effs := ([] ++ (paths.map fun x =>
          [Eff.fsRead x, Eff.fsWrite x (C x)]).flatten)
            ++ [Eff.outLine (summaryMsg paths.length)], exited := none } := by
    unfold aggregate
    rfl
  rw [hagg] at hrun
  rw [hrun]
  have hq : Quiet (paths.map fun x => [Eff.fsRead x, Eff.fsWrite x (C x)]).flatten := by
    apply quiet_flatten
    intro l hl
    rw [List.mem_map] at hl
    obtain ⟨y, _, hy⟩ := hl
    intro e he
    rw [← hy] at he
    simp at he
    rcases he with h | h <;> subst h <;> rfl
  refine ⟨by simp, ?_, ?_, rfl⟩
  · simp only [List.nil_append, writesOf_append, writesOf_flatten_items]
    simp [writesOf]
  · simp only [List.nil_append, stdoutLines_append, stdoutLines_of_quiet _ hq]
    simp [stdoutLines]

/-- Claim C7 witness: two files, one of them the nested `a/b.png`, each
written back to its own path, with the count "2". -/
theorem C7_witness :
    (run envNested (Input.paths [[("a"), ("b.png")], [("c.png")]])
        { plugin := some [("id")], outDir := none, write := true } {}).effs =
      [Eff.fsRead [("a"), ("b.png")], Eff.fsWrite [("a"), ("b.png")] [7],
       Eff.fsRead [("c.png")], Eff.fsWrite [("c.png")] [8],
       Eff.outLine (summaryMsg 2)] ∧
    writesOf (run envNested (Input.paths [[("a"), ("b.png")], [("c.png")]])
        { plugin := some [("id")], outDir := none, write := true } {}).effs
      = [([("a"), ("b.png")], [7]), ([("c.png")], [8])] ∧
    exitCode (run envNested (Input.paths [[("a"), ("b.png")], [("c.png")]])
        { plugin := some [("id")], outDir := none, write := true } {}) = 0 := by
  have h := C7_write_in_place envNested [[("a"), ("b.png")], [("c.png")]]
    { plugin := some [("id")], outDir := none, write := true } [idPlugin]
    [[("a"), ("b.png")], [("c.png")]]
    (fun y => if y = [("a"), ("b.png")] then [7] else [8])
    (fun y => if y = [("a"), ("b.png")] then [7] else [8])
    rfl rfl rfl (by decide) (by decide) (by decide) (by decide)
    (by intro y hy; fin_cases hy <;> rfl)
  refine ⟨?_, ?_, h.2.2.2⟩
  · rw [h.1]
    decide
  · rw [h.2.1]
    decide

/-- Claim C8: when some requested plugin name does not resolve (the names
before it all resolve), the run stops inside plugin resolution: the
diagnostic for that name — which contains the name and the
`npm install -g imagemin-<name>` remediation hint — is the only line on
standard error, the process exits with status 1, and no file read, file
write, or standard-output byte ever happens, for every input mode. -/
theorem C8_unknown_plugin_fatal (env : Env) (input : Input)
    (good rest : List String) (x : String) (od : Option Fpath) (w : Bool)
    (hgood : ∀ y ∈ good, (env.registry y).isSome = true)
    (hx : env.registry x = none) :
    run env input { plugin := some (good ++ x :: rest), outDir := od, write := w } {}
      = { effs := [Eff.errLine (unknownPluginMsg x)], exited := some 1 } ∧
    exitCode (run env input
      { plugin := some (good ++ x :: rest), outDir := od, write := w } {}) = 1 ∧
    stderrLines (run env input
      { plugin := some (good ++ x :: rest), outDir := od, write := w } {}).effs
      = [unknownPluginMsg x] ∧
    readsOf (run env input
      { plugin := some (good ++ x :: rest), outDir := od, write := w } {}).effs = [] ∧
    writesOf (run env input
      { plugin := some (good ++ x :: rest), outDir := od, write := w } {}).effs = [] ∧
    stdoutBytesOf (run env input
      { plugin := some (good ++ x :: rest), outDir := od, write := w } {}).effs = [] ∧
    (∃ pre post, unknownPluginMsg x = pre ++ (x ++ post)) := by
  have h1 : requirePlugins env
      (effectivePlugins { plugin := some (good ++ x :: rest), outDir := od, write := w })
      {} = ((({} : Proc).emit (Eff.errLine (unknownPluginMsg x))).doExit 1, none) :=
    requirePlugins_fail env x hx good rest {} hgood
  have h2 : run env input
      { plugin := some (good ++ x :: rest), outDir := od, write := w } {}
      = { effs := [Eff.errLine (unknownPluginMsg x)], exited := some 1 } := by
    unfold run
    rw [h1]
    rfl
  rw [h2]
  exact ⟨rfl, rfl, rfl, rfl, rfl, rfl,
    ⟨"Unknown plugin: ",
     "\n\nDid you forget to install the plugin?\nYou can install it with:\n\n  $ npm install -g imagemin-" ++ x,
     rfl⟩⟩

/-- Claim C8 witness: the name `a` resolves, the name `nope` does not. -/
theorem C8_witness :
    run envOrder (Input.paths [[("f.png")]])
      { plugin := some (["a"] ++ ("nope") :: []), outDir := none, write := false } {}
      = { effs := [Eff.errLine (unknownPluginMsg ("nope"))], exited := some 1 } ∧
    exitCode (run envOrder (Input.paths [[("f.png")]])
      { plugin := some (["a"] ++ ("nope") :: []), outDir := none, write := false } {}) = 1 ∧
    (∃ pre post, unknownPluginMsg ("nope") = pre ++ (("nope") ++ post)) := by
  have h := C8_unknown_plugin_fatal envOrder (Input.paths [[("f.png")]])
    ["a"] [] ("nope") none false (by decide) rfl
  exact ⟨h.1, h.2.1, h.2.2.2.2.2.2⟩

/-- Claim C9: plugin resolution maps each requested name, in caller order,
to its loaded handle — the handle list has the same length and its i-th
entry is the resolution of the i-th name — and when the caller supplies no
plugin list the fixed default ordered list
`gifsicle, jpegtran, optipng, svgo` is substituted. -/
theorem C9_resolver_order_and_default (env : Env) (p : Proc) (names : List String)
    (hs : List PluginHandle) (h : resolveAll env names = some hs) :
    (requirePlugins env names p).2 = some hs ∧
    (requirePlugins env names p).1 = p ∧
    hs.length = names.length ∧
    (∀ i, i < names.length →
      env.registry (names.getD i "") = some (hs.getD i (fun b => Except.ok b))) ∧
    (∀ od w, effectivePlugins { plugin := none, outDir := od, write := w }
      = DEFAULT_PLUGINS) ∧
    DEFAULT_PLUGINS = ["gifsicle", "jpegtran", "optipng", "svgo"] := by
  have h2 := requirePlugins_of_resolveAll env names hs p h
  exact ⟨by rw [h2], by rw [h2], resolveAll_length env names hs h,
    resolveAll_getD env names hs h, fun od w => rfl, rfl⟩

/-- Claim C9 witness: the caller order `b` before `a` is preserved in the
returned handle list. -/
theorem C9_witness :
    (requirePlugins envOrder ["b", "a"] {}).2 = some [plugB, plugA] ∧
    (requirePlugins envOrder ["b", "a"] {}).1 = ({} : Proc) ∧
    ([plugB, plugA] : List PluginHandle).length = (["b", "a"] : List String).length ∧
    (∀ od w, effectivePlugins { plugin := none, outDir := od, write := w }
      = DEFAULT_PLUGINS) ∧
    DEFAULT_PLUGINS = ["gifsicle", "jpegtran", "optipng", "svgo"] := by
  have h := C9_resolver_order_and_default envOrder {} ["b", "a"] [plugB, plugA] rfl
  exact ⟨h.1, h.2.1, h.2.2.1, h.2.2.2.2.1, h.2.2.2.2.2⟩

/-- Claim C10: piping a buffer through stdin (no positional input, no
terminal) with a plugin chain in which every plugin is the identity on
bytes writes exactly the input buffer to standard output, byte for byte,
and nothing else. -/
theorem C10_stdin_identity_roundtrip (env : Env) (names : List String)
    (use : List PluginHandle) (b : Bytes) (od : Option Fpath) (w : Bool)
    (hre : resolveAll env names = some use)
    (hid : ∀ h ∈ use, ∀ bs, h bs = Except.ok bs) :
    (cliMain env [] { plugin := some names, outDir := od, write := w }
        (some b) false).effs = [Eff.outBytes b] ∧
    stdoutData (cliMain env [] { plugin := some names, outDir := od, write := w }
        (some b) false).effs = b := by
  have hm : cliMain env [] { plugin := some names, outDir := od, write := w }
      (some b) false
      = run env (Input.buffer b) { plugin := some names, outDir := od, write := w } {} := by
    unfold cliMain
    simp
  have hb := run_buffer_eq env b { plugin := some names, outDir := od, write := w } use hre
  rw [applyChain_id use hid b] at hb
  rw [hm, hb]
  exact ⟨rfl, by simp [stdoutData, stdoutBytesOf]⟩

/-- Claim C10 witness at a concrete piped buffer. -/
theorem C10_witness :
    (cliMain envOneFile [] { plugin := some [("id")], outDir := none, write := false }
        (some [4, 2]) false).effs = [Eff.outBytes [4, 2]] ∧
    stdoutData (cliMain envOneFile []
        { plugin := some [("id")], outDir := none, write := false }
        (some [4, 2]) false).effs = [4, 2] := by
  have h := C10_stdin_identity_roundtrip envOneFile [("id")] [idPlugin] [4, 2]
    none false rfl
    (by
      intro h2 hh bs
      rw [List.mem_singleton] at hh
      subst hh
      rfl)
  exact h
